import Mathlib

/-!
# Verification of the remotefs `fs::file` data model

Shallow embedding of `src/fs/file/mod.rs`: the `Entry` tagged union with its
`Directory` and `File` variants and their accessors.  Rust `String` / `PathBuf`
values are embedded as `List Char`; the Rust `panic!` in the unwrap methods is
embedded as `Option.none`.  The `Metadata` and `UnixPex` types live in the
`metadata` / `permissions` submodules whose sources are not part of this tree;
they are modelled from the specification where needed.
-/

/-- Modelled from the spec: `UnixPexClass` (from the missing `permissions`
module) encodes the read/write/execute capabilities of one subject class
(owner, group or others). -/
structure UnixPexClass where
  read : Bool
  write : Bool
  execute : Bool
deriving DecidableEq

/-- Modelled from the spec: `UnixPex` (from the missing `permissions` module)
is the aggregate permission value of an entry: one `UnixPexClass` per class. -/
structure UnixPex where
  user : UnixPexClass
  group : UnixPexClass
  others : UnixPexClass
deriving DecidableEq

/-- Modelled from the spec: decoding of one octal digit (0-7) into the three
capabilities of one class: bit 4 is read, bit 2 is write, bit 1 is execute. -/
def UnixPexClass.from_octal (m : Nat) : UnixPexClass :=
  { read := m / 4 % 2 == 1, write := m / 2 % 2 == 1, execute := m % 2 == 1 }

/-- Modelled from the spec: re-encoding of one class into its octal digit. -/
def UnixPexClass.to_octal (c : UnixPexClass) : Nat :=
  (if c.read then 4 else 0) + (if c.write then 2 else 0) +
    (if c.execute then 1 else 0)

/-- Modelled from the spec: `from_mode` decodes a numeric Unix mode
(0 to 0o777) into the three per-class permission sets. -/
def UnixPex.from_mode (m : Nat) : UnixPex :=
  { user := UnixPexClass.from_octal (m / 64 % 8)
    group := UnixPexClass.from_octal (m / 8 % 8)
    others := UnixPexClass.from_octal (m % 8) }

/-- Modelled from the spec: `to_mode` re-encodes the aggregate into the
numeric Unix mode, the inverse of `from_mode`. -/
def UnixPex.to_mode (p : UnixPex) : Nat :=
  p.user.to_octal * 64 + p.group.to_octal * 8 + p.others.to_octal

/-- Modelled from the spec: `Metadata` (from the missing `metadata` module)
holds the descriptive attributes of an entry: byte size (defaulting to 0 when
unknown), three optional timestamps, optional owner/group numeric identifiers,
an optional permission aggregate, and an optional symlink target path. -/
structure Metadata where
  accessed : Option Nat
  created : Option Nat
  gid : Option Nat
  mode : Option UnixPex
  modified : Option Nat
  size : Nat
  symlink : Option (List Char)
  uid : Option Nat
deriving DecidableEq

/-- Modelled from the spec: default construction of `Metadata` yields the
zeroed value: size 0 and every optional attribute absent. -/
def Metadata.default : Metadata :=
  { accessed := none, created := none, gid := none, mode := none
    modified := none, size := 0, symlink := none, uid := none }

/-- `Directory` from `src/fs/file/mod.rs`: name, absolute path, metadata. -/
structure Directory where
  name : List Char
  path : List Char
  metadata : Metadata
deriving DecidableEq

/-- `File` from `src/fs/file/mod.rs`: name, absolute path, optional
extension, metadata. -/
structure File where
  name : List Char
  path : List Char
  extension : Option (List Char)
  metadata : Metadata
deriving DecidableEq

/-- Alias for the `File` payload type, usable inside the `Entry` namespace
where the bare name `File` refers to the constructor. -/
abbrev FileValue := File

/-- Alias for the `Directory` payload type, usable inside the `Entry`
namespace where the bare name `Directory` refers to the constructor. -/
abbrev DirectoryValue := Directory

/-- `Entry` from `src/fs/file/mod.rs`: the tagged union of the two variants. -/
inductive Entry where
  | Directory (dir : DirectoryValue)
  | File (file : FileValue)
deriving DecidableEq

/-- Semantics of Rust's `str::starts_with(c: char)`: the string's first
character equals `c`. -/
def starts_with_char (s : List Char) (c : Char) : Bool :=
  match s with
  | [] => false
  | a :: _ => a == c

/-- `Entry::path` from `src/fs/file/mod.rs`. -/
def Entry.path : Entry → List Char
  | .Directory dir => dir.path
  | .File file => file.path

/-- `Entry::name` from `src/fs/file/mod.rs`. -/
def Entry.name : Entry → List Char
  | .Directory dir => dir.name
  | .File file => file.name

/-- `Entry::metadata` from `src/fs/file/mod.rs`. -/
def Entry.metadata : Entry → Metadata
  | .Directory dir => dir.metadata
  | .File file => file.metadata

/-- `Entry::extension` from `src/fs/file/mod.rs`: `None` for directories. -/
def Entry.extension : Entry → Option (List Char)
  | .Directory _ => none
  | .File file => file.extension

/-- `Entry::is_dir` from `src/fs/file/mod.rs`. -/
def Entry.is_dir : Entry → Bool
  | .Directory _ => true
  | .File _ => false

/-- `Entry::is_file` from `src/fs/file/mod.rs`. -/
def Entry.is_file : Entry → Bool
  | .Directory _ => false
  | .File _ => true

/-- `Entry::is_hidden` from `src/fs/file/mod.rs`:
`self.name().starts_with('.')`. -/
def Entry.is_hidden (e : Entry) : Bool :=
  starts_with_char e.name '.'

/-- `Entry::unwrap_file` from `src/fs/file/mod.rs`; the `panic!` on the
mismatching variant is embedded as `none`. -/
def Entry.unwrap_file : Entry → Option FileValue
  | .File file => some file
  | _ => none

/-- `Entry::unwrap_dir` from `src/fs/file/mod.rs`; the `panic!` on the
mismatching variant is embedded as `none`. -/
def Entry.unwrap_dir : Entry → Option DirectoryValue
  | .Directory dir => some dir
  | _ => none

/-- Derived-extension rule as the specification words it (for comparison with
the stored `File.extension` field): the suffix of the name after the last
'.', excluding that '.'; absent when the name has no '.' or when the name
starts with '.' and has no further '.'. -/
def spec_derived_extension (name : List Char) : Option (List Char) :=
  let core := if name.head? == some '.' then name.tail else name
  if core.contains '.' then
    some ((name.reverse.takeWhile (fun c => c != '.')).reverse)
  else none

theorem starts_with_char_dot_iff (l : List Char) :
    starts_with_char l '.' = true ↔ ∃ rest, l = '.' :: rest := by
  cases l with
  | nil => simp [starts_with_char]
  | cons a rest =>
    simp only [starts_with_char, beq_iff_eq, List.cons.injEq]
    constructor
    · intro h
      exact ⟨rest, h, rfl⟩
    · rintro ⟨r, ha, _⟩
      exact ha

/-- C1: for every Entry, exactly one of `is_dir` and `is_file` is true:
`is_dir` holds iff the value is the Directory variant, `is_file` iff it is
the File variant, and the two results are never equal. -/
theorem entry_is_dir_xor_is_file (e : Entry) :
    e.is_dir ≠ e.is_file ∧
    (e.is_dir = true ↔ ∃ d, e = Entry.Directory d) ∧
    (e.is_file = true ↔ ∃ f, e = Entry.File f) := by
  cases e with
  | Directory d =>
    refine ⟨fun h => Bool.noConfusion h, ⟨fun _ => ⟨d, rfl⟩, fun _ => rfl⟩,
      ⟨fun h => Bool.noConfusion h, ?_⟩⟩
    rintro ⟨f, hf⟩
    cases hf
  | File f =>
    refine ⟨fun h => Bool.noConfusion h, ⟨fun h => Bool.noConfusion h, ?_⟩,
      ⟨fun _ => ⟨f, rfl⟩, fun _ => rfl⟩⟩
    rintro ⟨d, hd⟩
    cases hd

/-- C2: downcasting to the wrong variant never yields a value: `unwrap_file`
on a Directory-backed Entry and `unwrap_dir` on a File-backed Entry both end
in the panic (embedded as `none`), and a matching downcast returns the inner
value unchanged. -/
theorem entry_unwrap_safety :
    (∀ d : Directory, (Entry.Directory d).unwrap_file = none) ∧
    (∀ f : File, (Entry.File f).unwrap_dir = none) ∧
    (∀ f : File, (Entry.File f).unwrap_file = some f) ∧
    (∀ d : Directory, (Entry.Directory d).unwrap_dir = some d) :=
  ⟨fun _ => rfl, fun _ => rfl, fun _ => rfl, fun _ => rfl⟩

/-- C3: `extension` returns `none` on every Directory-backed Entry and the
stored extension field, unchanged, on every File-backed Entry. -/
theorem entry_extension_dispatch :
    (∀ d : Directory, (Entry.Directory d).extension = none) ∧
    (∀ f : File, (Entry.File f).extension = f.extension) :=
  ⟨fun _ => rfl, fun _ => rfl⟩

/-- C4: for every Entry of either variant, `is_hidden` is true iff the name
starts with the character '.'; the rule depends only on the name and applies
uniformly to both variants. -/
theorem entry_is_hidden_iff_dot (e : Entry) :
    (e.is_hidden = true ↔ ∃ rest, e.name = '.' :: rest) ∧
    ∀ p ext m, (Entry.File ⟨e.name, p, ext, m⟩).is_hidden = e.is_hidden ∧
      (Entry.Directory ⟨e.name, p, m⟩).is_hidden = e.is_hidden :=
  ⟨starts_with_char_dot_iff e.name, fun _ _ _ => ⟨rfl, rfl⟩⟩

/-- C5 as stated is false: a File value need not have its extension field
derived from its name. This concrete File — the one the repository's own
test constructs — has name `.gitignore` and stored extension `txt`, while
the spec's derivation rule yields no extension for that name. -/
theorem file_extension_not_derived :
    ¬ ((File.mk ".gitignore".data "/.gitignore".data (some "txt".data)
          Metadata.default).extension
        = spec_derived_extension
            (File.mk ".gitignore".data "/.gitignore".data (some "txt".data)
              Metadata.default).name) := by
  decide

/-- C5 amended: the extension field of a File is stored independently of the
name (two Files may share a name yet differ in extension), and `extension`
on a File-backed Entry returns that stored field unchanged. -/
theorem file_extension_independent_of_name :
    (∀ f : File, (Entry.File f).extension = f.extension) ∧
    ∃ g₁ g₂ : File, g₁.name = g₂.name ∧ g₁.extension ≠ g₂.extension :=
  ⟨fun _ => rfl,
    ⟨⟨"a".data, "/a".data, none, Metadata.default⟩,
      ⟨"a".data, "/a".data, some "txt".data, Metadata.default⟩,
      rfl, by decide⟩⟩

/-- C6: `path`, `name` and `metadata` are total and dispatch uniformly: on
either variant they return exactly that variant's stored field, with no
failure case. -/
theorem entry_accessors_total_dispatch :
    (∀ d : Directory, (Entry.Directory d).path = d.path ∧
      (Entry.Directory d).name = d.name ∧
      (Entry.Directory d).metadata = d.metadata) ∧
    (∀ f : File, (Entry.File f).path = f.path ∧
      (Entry.File f).name = f.name ∧
      (Entry.File f).metadata = f.metadata) :=
  ⟨fun _ => ⟨rfl, rfl, rfl⟩, fun _ => ⟨rfl, rfl, rfl⟩⟩

set_option maxRecDepth 4096 in
/-- C7: for every mode in the valid Unix range 0 to 0o777, decoding with
`from_mode` and re-encoding with `to_mode` is the identity. -/
theorem unix_pex_mode_roundtrip :
    ∀ m : Nat, m < 512 → UnixPex.to_mode (UnixPex.from_mode m) = m := by
  decide

/-- C7 witness: the round-trip at the concrete mode 0o644 = 420. -/
theorem unix_pex_mode_roundtrip_witness :
    420 < 512 ∧ UnixPex.to_mode (UnixPex.from_mode 420) = 420 :=
  ⟨by decide, unix_pex_mode_roundtrip 420 (by decide)⟩

/-- C8: a default-constructed Metadata is zeroed: size 0 and all of the
timestamps, owner/group identifiers and symlink target absent. -/
theorem metadata_default_zeroed :
    Metadata.default.size = 0 ∧ Metadata.default.created = none ∧
    Metadata.default.modified = none ∧ Metadata.default.accessed = none ∧
    Metadata.default.uid = none ∧ Metadata.default.gid = none ∧
    Metadata.default.symlink = none :=
  ⟨rfl, rfl, rfl, rfl, rfl, rfl, rfl⟩

/-- C9: Entry is a closed union over exactly Directory and File: every value
is one of the two variants and never both. -/
theorem entry_closed_union (e : Entry) :
    ((∃ d, e = Entry.Directory d) ∨ (∃ f, e = Entry.File f)) ∧
    ¬ ((∃ d, e = Entry.Directory d) ∧ (∃ f, e = Entry.File f)) := by
  cases e with
  | Directory d =>
    refine ⟨Or.inl ⟨d, rfl⟩, ?_⟩
    rintro ⟨⟨d', _⟩, ⟨f, hf⟩⟩
    cases hf
  | File f =>
    refine ⟨Or.inr ⟨f, rfl⟩, ?_⟩
    rintro ⟨⟨d, hd⟩, ⟨f', _⟩⟩
    cases hd

/-- C10: every accessor is a pure function of the Entry value: on equal
values all seven accessors return equal results, so successive calls on the
same unchanged value agree. -/
theorem entry_accessors_pure (e e' : Entry) (h : e = e') :
    e.path = e'.path ∧ e.name = e'.name ∧ e.metadata = e'.metadata ∧
    e.extension = e'.extension ∧ e.is_dir = e'.is_dir ∧
    e.is_file = e'.is_file ∧ e.is_hidden = e'.is_hidden := by
  subst h
  exact ⟨rfl, rfl, rfl, rfl, rfl, rfl, rfl⟩

/-- Sample entry used to witness the purity theorem at a concrete input. -/
def sampleDirEntry : Entry :=
  Entry.Directory ⟨"foo".data, "/foo".data, Metadata.default⟩

/-- C10 witness: the purity theorem applied at a concrete Directory entry. -/
theorem entry_accessors_pure_witness :
    sampleDirEntry = sampleDirEntry ∧
    (sampleDirEntry.path = sampleDirEntry.path ∧
      sampleDirEntry.name = sampleDirEntry.name ∧
      sampleDirEntry.metadata = sampleDirEntry.metadata ∧
      sampleDirEntry.extension = sampleDirEntry.extension ∧
      sampleDirEntry.is_dir = sampleDirEntry.is_dir ∧
      sampleDirEntry.is_file = sampleDirEntry.is_file ∧
      sampleDirEntry.is_hidden = sampleDirEntry.is_hidden) :=
  ⟨rfl, entry_accessors_pure sampleDirEntry sampleDirEntry rfl⟩
